import Mathlib

/-!
Verification development for the lyftr web-scrapping service (src/main.py).

The Python source is shallowly embedded: pure fragments become Lean
functions; the two effectful collaborators (the HTTP fetch and the
Playwright browser) are abstracted as inputs — `scrape_website` receives
the outcome of the static fetch, the HTML-parsing function and the outcome
of the dynamic render, and the pagination algorithm of
`render_with_playwright` is run against a `Site` function mapping each URL
to what the browser observes there.  Library collaborators
(BeautifulSoup's document queries, urllib's URL functions, Python string
and int builtins) are modelled by explicit Lean functions, each documented
at its definition.
-/

set_option maxRecDepth 8000

namespace Scrape

/-- Models Python `str.startswith` at the character-list level. -/
def charsBeginWith : List Char → List Char → Bool
  | [], _ => true
  | _ :: _, [] => false
  | p :: ps, x :: xs => p == x && charsBeginWith ps xs

/-- Models Python `str.startswith`. -/
def beginsWith (p s : String) : Bool := charsBeginWith p.data s.data

/-- Models Python `str.strip()` (whitespace strip on both ends). -/
def stripChars (l : List Char) : List Char :=
  ((l.dropWhile Char.isWhitespace).reverse.dropWhile Char.isWhitespace).reverse

/-- Models Python `str.strip()`. -/
def pyStrip (s : String) : String := String.mk (stripChars s.data)

/-- Splitter used to model Python `str.split()`: cut at every whitespace character. -/
def splitWsAux : List Char → List Char → List (List Char)
  | [], acc => [acc.reverse]
  | x :: xs, acc =>
    if x.isWhitespace then acc.reverse :: splitWsAux xs [] else splitWsAux xs (x :: acc)

/-- Models Python `str.split()` with no arguments: whitespace runs separate words,
empty pieces are dropped. -/
def pySplitWs (s : String) : List String :=
  ((splitWsAux s.data []).map String.mk).filter (fun t => t != "")

/-- Models Python string slicing `s[:n]` (first `n` characters). -/
def takeChars (n : Nat) (s : String) : String := String.mk (s.data.take n)

/-- Decimal digit character for `d < 10` (total, defaulting to '0'). -/
def digitChar (d : Nat) : Char :=
  match d with
  | 0 => '0'
  | 1 => '1'
  | 2 => '2'
  | 3 => '3'
  | 4 => '4'
  | 5 => '5'
  | 6 => '6'
  | 7 => '7'
  | 8 => '8'
  | 9 => '9'
  | _ => '0'

/-- Numeric value of a big-endian list of decimal digit characters. -/
def decVal (ds : List Char) : Nat := ds.foldl (fun a c => 10 * a + (c.toNat - 48)) 0

/-- Fuelled big-endian decimal digit expansion of a natural number. -/
def decCharsAux : Nat → Nat → List Char
  | 0, _ => []
  | fuel + 1, n =>
    if n < 10 then [digitChar n] else decCharsAux fuel (n / 10) ++ [digitChar (n % 10)]

/-- Decimal representation of a natural number, modelling Python f-string
formatting of a non-negative int (as in the section id `f"{type}-{idx}"`). -/
def natToDec (n : Nat) : String := String.mk (decCharsAux (n + 1) n)

/-- Positional index encoded in a section id `{type}-{index}`: the decimal
value of the digits after the first hyphen (the four section types contain
no hyphen). -/
def idIndex (id : String) : Nat :=
  decVal ((id.data.dropWhile (fun c => c != '-')).tail)

/-- Numeric value of an all-digit character list, `none` otherwise. -/
def digitsVal? (ds : List Char) : Option Nat :=
  if ds.isEmpty then none
  else if ds.all Char.isDigit then some (decVal ds) else none

/-- Models Python `int(s)` on the decimal strings this service feeds it:
surrounding whitespace is stripped, an optional sign is allowed, and any
other character makes the conversion fail (digit-group underscores are not
modelled). -/
def pyInt (s : String) : Option Int :=
  match stripChars s.data with
  | [] => none
  | '+' :: ds => (digitsVal? ds).map (fun n => (n : Int))
  | '-' :: ds => (digitsVal? ds).map (fun n => -(n : Int))
  | ds => (digitsVal? ds).map (fun n => (n : Int))

/-- Characters after the first occurrence of `c`, if any. -/
def afterChar (c : Char) : List Char → Option (List Char)
  | [] => none
  | x :: xs => if x == c then some xs else afterChar c xs

/-- Characters before the first occurrence of `c`. -/
def untilChar (c : Char) (l : List Char) : List Char := l.takeWhile (fun x => x != c)

/-- Splitter cutting a character list at every occurrence of `c`. -/
def splitOnCharAux (c : Char) : List Char → List Char → List (List Char)
  | [], acc => [acc.reverse]
  | x :: xs, acc =>
    if x == c then acc.reverse :: splitOnCharAux c xs [] else splitOnCharAux c xs (x :: acc)

/-- Split a character list at every occurrence of `c`. -/
def splitOnChar (c : Char) (l : List Char) : List (List Char) := splitOnCharAux c l []

/-- Query component of a URL, as in `urllib.parse.urlparse(url).query`:
the part after the first question mark, with the fragment removed first. -/
def queryOf (url : String) : List Char :=
  match afterChar '?' (untilChar '#' url.data) with
  | some rest => rest
  | none => []

/-- Models `urllib.parse.parse_qs` at the pair level: the query splits on
ampersands, the key is everything before the first equals sign, and pairs
with an empty value are dropped (`keep_blank_values=False`).
Percent-decoding is not modelled. -/
def parseQsPairs (q : List Char) : List (String × String) :=
  (splitOnChar '&' q).filterMap (fun pair =>
    match afterChar '=' pair with
    | none => none
    | some v => if v.isEmpty then none else some (String.mk (untilChar '=' pair), String.mk v))

/-- First value bound to `name` in the query string of `url`
(models `parse_qs(...)[name][0]` guarded by `name in qs`). -/
def getQueryParam (name : String) (url : String) : Option String :=
  ((parseQsPairs (queryOf url)).find? (fun p => p.1 == name)).map (fun p => p.2)

/-- Split a URL at the first `://`, giving the scheme part and the rest. -/
def splitScheme : List Char → Option (List Char × List Char)
  | [] => none
  | ':' :: '/' :: '/' :: rest => some ([], rest)
  | x :: xs => (splitScheme xs).map (fun p => (x :: p.1, p.2))

/-- Models `urllib.parse.urljoin` for the absolute http(s) base URLs this
service handles: a reference with its own `scheme://` stands alone;
`//`, `?`, `#` and `/` references replace the matching suffix of the base;
other references resolve against the base path's directory.  Dot-segment
normalization and non-hierarchical schemes are not modelled. -/
def urljoin (base href : String) : String :=
  if href = "" then base
  else if (splitScheme href.data).isSome then href
  else
    match splitScheme base.data with
    | none => href
    | some (sch, rest) =>
      let netloc := rest.takeWhile (fun c => c != '/' && c != '?' && c != '#')
      let pathqf := rest.drop netloc.length
      let path := pathqf.takeWhile (fun c => c != '?' && c != '#')
      let pathq := pathqf.takeWhile (fun c => c != '#')
      let root := String.mk (sch ++ (':' :: '/' :: '/' :: netloc))
      match href.data with
      | '/' :: '/' :: _ => String.mk sch ++ ":" ++ href
      | '?' :: _ => root ++ String.mk path ++ href
      | '#' :: _ => root ++ String.mk pathq ++ href
      | '/' :: _ => root ++ href
      | _ =>
        let dir := (path.reverse.dropWhile (fun c => c != '/')).reverse
        let dir2 := if dir.isEmpty then ['/'] else dir
        root ++ String.mk dir2 ++ href

/-! ## Document model

BeautifulSoup's parsed tree (an external capability) is modelled as a
mutual inductive of element and text nodes; the queries `extract_meta` and
`extract_sections` perform on it are given the library's documented
semantics. -/

mutual
inductive Node where
  | text : String → Node
  | elem : String → List (String × String) → NodeList → Node
inductive NodeList where
  | nil : NodeList
  | cons : Node → NodeList → NodeList
end

/-- Convert a `NodeList` to an ordinary list of nodes. -/
def NodeList.toList : NodeList → List Node
  | .nil => []
  | .cons n ns => n :: NodeList.toList ns

/-- Tag name of a node (text nodes have no tag). -/
def Node.tag : Node → String
  | .text _ => ""
  | .elem t _ _ => t

/-- Attribute lookup, modelling BeautifulSoup `tag.get(name)`. -/
def Node.attr (n : Node) (name : String) : Option String :=
  match n with
  | .text _ => none
  | .elem _ attrs _ => (attrs.find? (fun p => p.1 == name)).map (fun p => p.2)

mutual
/-- Descendant nodes of a node in document (preorder) order. -/
def Node.descendants : Node → List Node
  | .text _ => []
  | .elem _ _ cs => NodeList.descendantsL cs
/-- Nodes of a node list together with all their descendants, in document order. -/
def NodeList.descendantsL : NodeList → List Node
  | .nil => []
  | .cons n ns => n :: Node.descendants n ++ NodeList.descendantsL ns
end

/-- Models BeautifulSoup `elem.find_all(...)` (recursive): descendants
satisfying the predicate, in document order. -/
def findAllDesc (p : Node → Bool) (n : Node) : List Node := (Node.descendants n).filter p

/-- Models BeautifulSoup `soup.find(tag)` on a whole document: first
element anywhere with the given tag. -/
def findFirstTagDoc (t : String) (doc : NodeList) : Option Node :=
  ((NodeList.descendantsL doc).filter (fun n => n.tag == t)).head?

/-- Direct children of a node. -/
def Node.childNodes : Node → List Node
  | .text _ => []
  | .elem _ _ cs => cs.toList

mutual
/-- Text-node strings below a node, in document order
(models BeautifulSoup's string descendants). -/
def Node.texts : Node → List String
  | .text s => [s]
  | .elem _ _ cs => NodeList.textsL cs
/-- Text-node strings below every node of a list, in document order. -/
def NodeList.textsL : NodeList → List String
  | .nil => []
  | .cons n ns => Node.texts n ++ NodeList.textsL ns
end

/-- Models BeautifulSoup `get_text(separator=sep, strip=True)`: each string
descendant is stripped, empties are dropped, and the rest are joined with
the separator. -/
def getTextWith (sep : String) (n : Node) : String :=
  String.intercalate sep (((Node.texts n).map pyStrip).filter (fun s => s != ""))

/-- Models BeautifulSoup `get_text(strip=True)` (empty separator). -/
def getTextStrip (n : Node) : String := getTextWith "" n

/-- Models BeautifulSoup `tag.text` without stripping: raw concatenation of
string descendants. -/
def rawText (n : Node) : String := String.join (Node.texts n)

/-- Attribute rendering of the serializer modelling `str(elem)`. -/
def serializeAttrs : List (String × String) → String
  | [] => ""
  | (k, v) :: rest => " " ++ k ++ "=" ++ "\"" ++ v ++ "\"" ++ serializeAttrs rest

mutual
/-- Models `str(elem)`: markup serialization of a node by the parsing
library (an external capability; the exact quoting conventions are the
model's). -/
def serializeNode : Node → String
  | .text s => s
  | .elem t attrs cs => "<" ++ t ++ serializeAttrs attrs ++ ">" ++ serializeList cs ++ "</" ++ t ++ ">"
/-- Serialization of a node list, models the concatenated markup of children. -/
def serializeList : NodeList → String
  | .nil => ""
  | .cons n ns => serializeNode n ++ serializeList ns
end

/-! ## Data model and constants (src/main.py lines 15-19 and the result shapes) -/

/-- Constant `RAW_HTML_MAX_CHARS` of src/main.py. -/
def RAW_HTML_MAX_CHARS : Nat := 5000

/-- Constant `TEXT_LENGTH_JS_THRESHOLD` of src/main.py. -/
def TEXT_LENGTH_JS_THRESHOLD : Nat := 500

/-- Constant `PLAYWRIGHT_SCROLL_TIMES` of src/main.py. -/
def PLAYWRIGHT_SCROLL_TIMES : Nat := 3

/-- A link entry `{"text": ..., "href": ...}` of a section. -/
structure Link where
  text : String
  href : String
  deriving DecidableEq

/-- An image entry `{"src": ..., "alt": ...}` of a section. -/
structure Image where
  src : String
  alt : String
  deriving DecidableEq

/-- The `content` dictionary of a section. -/
structure Content where
  headings : List String
  text : String
  links : List Link
  images : List Image
  lists : List (List String)
  tables : List (List (List String))
  deriving DecidableEq

/-- A section dictionary as built by `extract_sections` (and the fallback of
`scrape_website`). -/
structure Section where
  id : String
  type : String
  label : String
  sourceUrl : String
  content : Content
  rawHtml : String
  truncated : Bool
  deriving DecidableEq

/-- The `interactions` dictionary of `render_with_playwright`. -/
structure Interactions where
  clicks : List String
  scrolls : Nat
  pages : List String
  deriving DecidableEq

/-- An entry of the `errors` list: `{"message": ..., "phase": ...}`. -/
structure ErrorRecord where
  message : String
  phase : String
  deriving DecidableEq

/-- The `meta` dictionary built by `extract_meta`. -/
structure Meta where
  title : String
  description : String
  language : String
  canonical : Option String
  deriving DecidableEq

/-- The result dictionary built by `build_result`; the time-varying
`scrapedAt` timestamp (an external clock read) is not modelled. -/
structure PageResult where
  url : String
  meta : Meta
  sections : List Section
  interactions : Interactions
  errors : List ErrorRecord
  deriving DecidableEq

/-! ## Metadata extractor (src/main.py lines 220-253) -/

/-- Embedding of `extract_meta` of src/main.py: title from `og:title`
content falling back to the title tag, description from the description
meta tag, language from the root `lang` attribute, canonical from
`link[rel=canonical]` resolved absolute. -/
def extract_meta (url : String) (doc : NodeList) : Meta :=
  let nodes := NodeList.descendantsL doc
  let titleTag := (nodes.filter (fun n => n.tag == "title")).head?
  let ogTitle :=
    (nodes.filter (fun n => n.tag == "meta" && n.attr "property" == some "og:title")).head?
  let titleFromTag :=
    match titleTag with
    | some t => if rawText t != "" then pyStrip (rawText t) else ""
    | none => ""
  let title :=
    match ogTitle.bind (fun og => og.attr "content") with
    | some c => if c != "" then pyStrip c else titleFromTag
    | none => titleFromTag
  let metaDesc :=
    (nodes.filter (fun n => n.tag == "meta" && n.attr "name" == some "description")).head?
  let desc :=
    match metaDesc.bind (fun m => m.attr "content") with
    | some c => if c != "" then pyStrip c else ""
    | none => ""
  let htmlTag := (nodes.filter (fun n => n.tag == "html")).head?
  let lang :=
    match htmlTag with
    | some h => pyStrip ((h.attr "lang").getD "")
    | none => ""
  let canonicalLink :=
    (nodes.filter (fun n => n.tag == "link" && n.attr "rel" == some "canonical")).head?
  let canonical0 : Option String :=
    match canonicalLink.bind (fun l => l.attr "href") with
    | some h => if h != "" then some (pyStrip h) else none
    | none => none
  let canonical : Option String :=
    match canonical0 with
    | some c => if c != "" then some (urljoin url c) else some c
    | none => none
  { title := title, description := desc, language := lang, canonical := canonical }

/-! ## Section extractor (src/main.py lines 256-360) -/

/-- The structural tag set of `extract_sections`. -/
def sectionTags : List String := ["header", "nav", "section", "footer", "article"]

/-- The heading tag set of `extract_sections`. -/
def headingTags : List String := ["h1", "h2", "h3"]

/-- Section type classification of `extract_sections` (lines 321-330). -/
def sectionTypeOf (tag : String) : String :=
  if tag == "header" then "hero"
  else if tag == "nav" then "nav"
  else if tag == "footer" then "footer"
  else "section"

/-- Container choice of `extract_sections`: the first `main` element, else
the first `body`, else none (lines 259-262). -/
def containerOf (doc : NodeList) : Option Node :=
  match findFirstTagDoc "main" doc with
  | some m => some m
  | none => findFirstTagDoc "body" doc

/-- Candidate blocks of `extract_sections`: direct children of the
container restricted to the structural tag set, the whole container when
none exist, nothing when there is no container (lines 264-272). -/
def candidatesOf (doc : NodeList) : List Node :=
  match containerOf doc with
  | none => []
  | some c =>
    let direct := (Node.childNodes c).filter (fun n => sectionTags.contains n.tag)
    if direct.isEmpty then [c] else direct

/-- Loop body of `extract_sections` (lines 274-354): the section dictionary
built from candidate `elem` at position `idx`. -/
def buildSection (url : String) (idx : Nat) (elem : Node) : Section :=
  let headings :=
    ((findAllDesc (fun n => headingTags.contains n.tag) elem).map getTextStrip).filter
      (fun s => s != "")
  let text := getTextWith " " elem
  let links :=
    (findAllDesc (fun n => n.tag == "a" && (n.attr "href").isSome) elem).map
      (fun a => { text := getTextStrip a, href := urljoin url ((a.attr "href").getD "") : Link })
  let images :=
    (findAllDesc (fun n => n.tag == "img" && (n.attr "src").isSome) elem).map
      (fun i => { src := urljoin url ((i.attr "src").getD ""), alt := (i.attr "alt").getD "" : Image })
  let lists :=
    ((findAllDesc (fun n => n.tag == "ul" || n.tag == "ol") elem).map
      (fun ul => (findAllDesc (fun n => n.tag == "li") ul).map getTextStrip)).filter
      (fun items => !items.isEmpty)
  let tables :=
    ((findAllDesc (fun n => n.tag == "table") elem).map
      (fun t =>
        ((findAllDesc (fun n => n.tag == "tr") t).map
          (fun tr =>
            (findAllDesc (fun n => n.tag == "td" || n.tag == "th") tr).map getTextStrip)).filter
          (fun cells => !cells.isEmpty))).filter
      (fun rows => !rows.isEmpty)
  let raw := serializeNode elem
  let truncated := decide (RAW_HTML_MAX_CHARS < raw.length)
  let rawHtml :=
    if RAW_HTML_MAX_CHARS < raw.length then takeChars RAW_HTML_MAX_CHARS raw ++ "...[truncated]"
    else raw
  let sectionType := sectionTypeOf elem.tag
  let label :=
    match headings with
    | h :: _ => h
    | [] =>
      let words := pySplitWs text
      if words.isEmpty then "Section" else String.intercalate " " (words.take 7)
  { id := sectionType ++ "-" ++ natToDec idx
    type := sectionType
    label := label
    sourceUrl := url
    content :=
      { headings := headings, text := text, links := links, images := images, lists := lists,
        tables := tables }
    rawHtml := rawHtml
    truncated := truncated }

/-- Emission condition of `extract_sections` (line 357):
`if text or links or images or lists or tables`. -/
def sectionHasContent (s : Section) : Bool :=
  s.content.text != "" || !s.content.links.isEmpty || !s.content.images.isEmpty ||
    !s.content.lists.isEmpty || !s.content.tables.isEmpty

/-- Embedding of `extract_sections` of src/main.py: build a section from
every candidate block in order and keep those with some content. -/
def extract_sections (url : String) (doc : NodeList) : List Section :=
  ((candidatesOf doc).enum.map (fun p => buildSection url p.1 p.2)).filter
    (fun s => sectionHasContent s)

/-! ## Pagination traversal of the dynamic render navigator
(src/main.py lines 126-209)

The browser is abstracted as a `Site` function: for each URL it yields
what the page queries observe after loading that URL (the first explicit
"next" candidate's href attribute, and the hrefs of all `a[href]`
anchors).  The model identifies `page.url` with the URL navigated to
(redirects are not modelled) and takes the page state at pagination time
as a function of the URL alone. -/

/-- What the browser observes on one loaded page, for the pagination loop. -/
structure PageView where
  /-- Result of the explicit "next" selector scan (lines 131-144): the
  `href` attribute of the first matching element, `none` when no selector
  matches or the attribute is absent. -/
  explicitNext : Option String
  /-- The hrefs of all `a[href]` elements in document order, a missing
  attribute read as `""` (line 163). -/
  anchorHrefs : List String
  deriving DecidableEq

/-- A website, as the pagination loop observes it. -/
def Site := String → PageView

/-- The `MAX_PAGES` constant of the pagination loop (line 127). -/
def MAX_PAGES : Nat := 3

/-- Current page number read from the current URL (lines 148-157):
the `page` query parameter parsed as int, defaulting to 1 when missing or
unparseable. -/
def current_page_num (currentUrl : String) : Int :=
  match getQueryParam "page" currentUrl with
  | some v => (pyInt v).getD 1
  | none => 1

/-- Page number carried by an anchor href once resolved against the
current URL (lines 164-174). -/
def anchorPageNum (currentUrl href : String) : Option Int :=
  (getQueryParam "page" (urljoin currentUrl href)).bind pyInt

/-- One iteration of the anchor scan of the numbered-pagination fallback
(lines 162-182): keep the candidate with the smallest page number strictly
greater than the current one, the first anchor winning ties. -/
def pickNumberedStep (currentUrl : String) (curNum : Int) (acc : Option String × Option Int)
    (href : String) : Option String × Option Int :=
  let absolute := urljoin currentUrl href
  match getQueryParam "page" absolute with
  | none => acc
  | some pv =>
    match pyInt pv with
    | none => acc
    | some pnum =>
      if decide (curNum < pnum) && Option.all (fun b => decide (pnum < b)) acc.2 then
        (some absolute, some pnum)
      else acc

/-- The numbered-pagination fallback (lines 146-185): final
`(candidate_next_url, candidate_next_page_num)` pair after scanning all
anchors. -/
def pick_numbered_full (currentUrl : String) (hrefs : List String) :
    Option String × Option Int :=
  hrefs.foldl (pickNumberedStep currentUrl (current_page_num currentUrl)) (none, none)

/-- The URL chosen by the numbered-pagination fallback, if any. -/
def pick_numbered (currentUrl : String) (hrefs : List String) : Option String :=
  (pick_numbered_full currentUrl hrefs).1

/-- Next-target choice of one loop iteration (lines 129-189): the first
explicit "next" selector's href when non-empty, else the numbered
fallback; a falsy (`None` or empty) final value means stop. -/
def choose_next_link (site : Site) (currentUrl : String) : Option String :=
  let v := site currentUrl
  let explicit0 : Option String :=
    match v.explicitNext with
    | some h => if h != "" then some h else none
    | none => none
  let nl :=
    match explicit0 with
    | some h => some h
    | none => pick_numbered currentUrl v.anchorHrefs
  match nl with
  | some h => if h != "" then some h else none
  | none => none

/-- The `while len(interactions["pages"]) < MAX_PAGES` loop (lines
128-203), with fuel.  Each iteration resolves the chosen target against
the current URL, stops on a cycle (line 195), otherwise navigates and
appends to the visited log.  `MAX_PAGES` fuel suffices because every
iteration grows the log. -/
def paginate_loop (site : Site) : Nat → List String → String → List String × String
  | 0, pages, cur => (pages, cur)
  | fuel + 1, pages, cur =>
    if pages.length < MAX_PAGES then
      match choose_next_link site cur with
      | none => (pages, cur)
      | some nl =>
        if urljoin cur nl ∈ pages then (pages, cur)
        else paginate_loop site fuel (pages ++ [urljoin cur nl]) (urljoin cur nl)
    else (pages, cur)

/-- Visited-pages log produced by the pagination part of
`render_with_playwright` for a start URL (lines 70, 128-209): the log
starts at the target URL, the loop extends it, and the final current URL
is appended if somehow absent (lines 207-209). -/
def render_pages (site : Site) (url : String) : List String :=
  let r := paginate_loop site MAX_PAGES [url] url
  if r.2 ∈ r.1 then r.1 else r.1 ++ [r.2]

/-! ## Orchestrator `scrape_website` (src/main.py lines 394-487)

The route handler is embedded as a pure function of the URL and the
outcomes of its three external calls: the static fetch result
(`fetch_html`, `None` on failure), the HTML parser (`BeautifulSoup`,
modelled as a `String → NodeList` function), and the dynamic render result
(`render_with_playwright`, a pair of optional HTML and interaction log).
The returned record also carries whether each external pass was invoked,
mirroring the control flow. -/

/-- Scheme validation of `scrape_website` (line 398). -/
def scheme_valid (url : String) : Bool :=
  beginsWith "http://" url || beginsWith "https://" url

/-- The empty meta dictionary (lines 403, 411-416). -/
def emptyMeta : Meta := { title := "", description := "", language := "", canonical := none }

/-- The initial interactions of the static path (lines 418-422). -/
def initInteractions (url : String) : Interactions :=
  { clicks := [], scrolls := 0, pages := [url] }

/-- The scheme-validation error record (lines 399-402). -/
def schemeErrorRec : ErrorRecord :=
  { message := "URL must start with http:// or https://", phase := "fetch" }

/-- The static-fetch error record (lines 444-447). -/
def fetchErrorRec : ErrorRecord :=
  { message := "Static fetch failed (blocked, 4xx/5xx, or network error).", phase := "fetch" }

/-- The render error record (lines 448-451). -/
def renderErrorRec : ErrorRecord :=
  { message := "JS fallback with Playwright failed.", phase := "render" }

/-- Meta of the static pass (lines 411-427): extracted when the fetch
succeeded, empty otherwise. -/
def static_meta (url : String) (fetchResult : Option String) (parse : String → NodeList) : Meta :=
  match fetchResult with
  | some h => extract_meta url (parse h)
  | none => emptyMeta

/-- Sections of the static pass (lines 417-427): extracted when the fetch
succeeded, empty otherwise. -/
def static_sections (url : String) (fetchResult : Option String)
    (parse : String → NodeList) : List Section :=
  match fetchResult with
  | some h => extract_sections url (parse h)
  | none => []

/-- Total static section text length (line 430). -/
def total_text_len (secs : List Section) : Nat :=
  (secs.map (fun s => s.content.text.length)).sum

/-- The JS-fallback decision (lines 429-431): static failure or total text
below the threshold. -/
def use_js_fallback (url : String) (fetchResult : Option String)
    (parse : String → NodeList) : Bool :=
  fetchResult.isNone ||
    decide (total_text_len (static_sections url fetchResult parse) < TEXT_LENGTH_JS_THRESHOLD)

/-- State of `scrape_website` after the static pass and the optional
dynamic pass, before the fallback-section step. -/
structure CoreState where
  meta : Meta
  sections : List Section
  interactions : Interactions
  errors : List ErrorRecord
  deriving DecidableEq

/-- Lines 407-451 of `scrape_website`: the static pass, the JS-fallback
decision, and — when triggered — wholesale replacement on dynamic success
or error emission on dynamic failure (on which the partial dynamic
interaction log is discarded and the initial interactions stand). -/
def scrape_core (url : String) (fetchResult : Option String) (parse : String → NodeList)
    (renderResult : Option String × Interactions) : CoreState :=
  if use_js_fallback url fetchResult parse then
    match renderResult.1 with
    | some hjs =>
      { meta := extract_meta url (parse hjs)
        sections := extract_sections url (parse hjs)
        interactions := renderResult.2
        errors := [] }
    | none =>
      { meta := static_meta url fetchResult parse
        sections := static_sections url fetchResult parse
        interactions := initInteractions url
        errors := (if fetchResult.isNone then [fetchErrorRec] else []) ++ [renderErrorRec] }
  else
    { meta := static_meta url fetchResult parse
      sections := static_sections url fetchResult parse
      interactions := initInteractions url
      errors := [] }

/-- The fallback section synthesized at lines 453-485: body text and
markup come from the static HTML (`html`, falsy when the fetch failed or
returned an empty string), with the same truncation cap. -/
def fallback_section (url : String) (fetchResult : Option String)
    (parse : String → NodeList) : Section :=
  let bodyPair :=
    match fetchResult with
    | some h =>
      if h = "" then ("", "")
      else
        match findFirstTagDoc "body" (parse h) with
        | some body => (getTextWith " " body, serializeNode body)
        | none => ("", "")
    | none => ("", "")
  let bodyText := bodyPair.1
  let bodyHtml0 := bodyPair.2
  let truncatedB := decide (RAW_HTML_MAX_CHARS < bodyHtml0.length)
  let bodyHtml :=
    if RAW_HTML_MAX_CHARS < bodyHtml0.length then
      takeChars RAW_HTML_MAX_CHARS bodyHtml0 ++ "...[truncated]"
    else bodyHtml0
  { id := "section-0"
    type := "section"
    label := "Page Content"
    sourceUrl := url
    content :=
      { headings := [], text := bodyText, links := [], images := [], lists := [], tables := [] }
    rawHtml := bodyHtml
    truncated := truncatedB }

/-- Result of `scrape_website` together with which external passes ran. -/
structure ScrapeOutcome where
  result : PageResult
  fetchInvoked : Bool
  renderInvoked : Bool
  deriving DecidableEq

/-- Embedding of the `scrape_website` route handler of src/main.py:
scheme validation, static pass, optional dynamic pass, and the
fallback-section synthesis when sections and errors are both empty. -/
def scrape_website (url : String) (fetchResult : Option String) (parse : String → NodeList)
    (renderResult : Option String × Interactions) : ScrapeOutcome :=
  if scheme_valid url then
    let core := scrape_core url fetchResult parse renderResult
    let finalSections :=
      if core.sections.isEmpty && core.errors.isEmpty then
        [fallback_section url fetchResult parse]
      else core.sections
    { result :=
        { url := url, meta := core.meta, sections := finalSections,
          interactions := core.interactions, errors := core.errors }
      fetchInvoked := true
      renderInvoked := use_js_fallback url fetchResult parse }
  else
    { result :=
        { url := url, meta := emptyMeta, sections := [],
          interactions := { clicks := [], scrolls := 0, pages := [] },
          errors := [schemeErrorRec] }
      fetchInvoked := false
      renderInvoked := false }

/-! ## Concrete instances used in the claim theorems -/

/-- A scheme-valid example URL. -/
def cxUrl : String := "http://cx.example/"

/-- A static HTML string whose parse has no `main` and no `body`. -/
def cxStaticHtml : String := "<html></html>"

/-- A dynamic HTML string (same degenerate parse). -/
def cxDynHtml : String := "<div></div>"

/-- A parsed document consisting of a bare `html` element: no `main`, no
`body`, hence no sections and no fallback body text. -/
def cxDoc : NodeList := NodeList.cons (Node.elem "html" [] NodeList.nil) NodeList.nil

/-- A parser mapping every HTML string to the degenerate document. -/
def cxParse : String → NodeList := fun _ => cxDoc

/-- An example dynamic interaction log. -/
def cxLog : Interactions := { clicks := [], scrolls := 3, pages := ["http://cx.example/"] }

/-- First page of the synthetic three-page cycle site. -/
def pg1 : String := "http://pag.example/a"

/-- Second page of the synthetic three-page cycle site. -/
def pg2 : String := "http://pag.example/b"

/-- Third page of the synthetic three-page cycle site. -/
def pg3 : String := "http://pag.example/c"

/-- A synthetic site whose page 1 links to page 2, page 2 to page 3, and
page 3 back to page 1. -/
def cycleSite : Site := fun u =>
  if u = pg1 then { explicitNext := some pg2, anchorHrefs := [] }
  else if u = pg2 then { explicitNext := some pg3, anchorHrefs := [] }
  else { explicitNext := some pg1, anchorHrefs := [] }

/-- Current URL of the numbered-pagination example: page 1 of a listing. -/
def c8url : String := "http://ex.example/list?page=1"

/-- A 5001-character string. -/
def big5001 : String := String.mk (List.replicate 5001 'x')

/-- A 5000-character string. -/
def big5000 : String := String.mk (List.replicate 5000 'x')

/-- A section block with text content, used as a candidate. -/
def w9elem : Node := Node.elem "section" [] (NodeList.cons (Node.text "Hello world") NodeList.nil)

/-- A document with a body holding one content-bearing section block and
one empty nav block. -/
def secDoc : NodeList :=
  NodeList.cons
    (Node.elem "html" []
      (NodeList.cons
        (Node.elem "body" []
          (NodeList.cons w9elem
            (NodeList.cons (Node.elem "nav" [] NodeList.nil) NodeList.nil)))
        NodeList.nil))
    NodeList.nil

/-- Source URL of the `secDoc` example. -/
def w9url : String := "http://t.example/"

/-- The section extracted from `secDoc`. -/
def w9sec : Section := buildSection w9url 0 w9elem

/-! ## Helper lemmas -/

theorem strdata_append (s t : String) : (s ++ t).data = s.data ++ t.data := by
  cases s
  cases t
  rfl

theorem digitVal_digitChar {d : Nat} (h : d < 10) : (digitChar d).toNat - 48 = d := by
  interval_cases d <;> rfl

theorem decVal_append_digit (l : List Char) (c : Char) :
    decVal (l ++ [c]) = 10 * decVal l + (c.toNat - 48) := by
  simp [decVal, List.foldl_append]

theorem decVal_decCharsAux : ∀ fuel n : Nat, n < fuel → decVal (decCharsAux fuel n) = n := by
  intro fuel
  induction fuel with
  | zero => intro n h; omega
  | succ f ih =>
    intro n h
    by_cases h10 : n < 10
    · simp only [decCharsAux, if_pos h10]
      simpa [decVal] using digitVal_digitChar h10
    · have hpos : 0 < n := by omega
      have hdiv : n / 10 < n := Nat.div_lt_self hpos (by omega)
      have hrec : n / 10 < f := by omega
      simp only [decCharsAux, if_neg h10]
      rw [decVal_append_digit, ih _ hrec, digitVal_digitChar (Nat.mod_lt _ (by omega))]
      omega

theorem natToDec_inj {m n : Nat} (h : natToDec m = natToDec n) : m = n := by
  have hd : decCharsAux (m + 1) m = decCharsAux (n + 1) n := congrArg String.data h
  have hm := decVal_decCharsAux (m + 1) m (by omega)
  have hn := decVal_decCharsAux (n + 1) n (by omega)
  rw [← hm, ← hn, hd]

theorem digitChar_ne_hyphen (d : Nat) : digitChar d ≠ '-' := by
  unfold digitChar
  split <;> decide

theorem decCharsAux_no_hyphen : ∀ fuel n : Nat, '-' ∉ decCharsAux fuel n := by
  intro fuel
  induction fuel with
  | zero => intro n; simp [decCharsAux]
  | succ f ih =>
    intro n
    by_cases h10 : n < 10
    · simp only [decCharsAux, if_pos h10]
      intro hm
      exact digitChar_ne_hyphen n (List.mem_singleton.mp hm).symm
    · simp only [decCharsAux, if_neg h10]
      intro hm
      rcases List.mem_append.mp hm with hm1 | hm2
      · exact ih _ hm1
      · exact digitChar_ne_hyphen _ (List.mem_singleton.mp hm2).symm

theorem dropWhile_to_hyphen (r : List Char) :
    ∀ l : List Char, '-' ∉ l → (l ++ '-' :: r).dropWhile (fun c => c != '-') = '-' :: r := by
  intro l
  induction l with
  | nil => intro _; simp [List.dropWhile]
  | cons a l ih =>
    intro h
    have ha : (a != '-') = true := by
      have : a ≠ '-' := fun e => h (by simp [e])
      simp [this]
    simp only [List.cons_append, List.dropWhile_cons, ha, if_true]
    exact ih (fun hm => h (List.mem_cons_of_mem _ hm))

theorem idIndex_mk (t : String) (i : Nat) (h : '-' ∉ t.data) :
    idIndex (t ++ "-" ++ natToDec i) = i := by
  unfold idIndex
  rw [strdata_append, strdata_append]
  have hdash : ("-" : String).data = ['-'] := rfl
  rw [hdash, List.append_assoc]
  show decVal ((List.dropWhile _ (t.data ++ '-' :: (natToDec i).data)).tail) = i
  rw [dropWhile_to_hyphen _ _ h]
  show decVal (decCharsAux (i + 1) i) = i
  exact decVal_decCharsAux _ _ (by omega)

theorem sectionTypeOf_no_hyphen (t : String) : '-' ∉ (sectionTypeOf t).data := by
  unfold sectionTypeOf
  split
  · decide
  split
  · decide
  split
  · decide
  · decide

theorem buildSection_id (url : String) (idx : Nat) (e : Node) :
    (buildSection url idx e).id = sectionTypeOf e.tag ++ "-" ++ natToDec idx := rfl

theorem buildSection_type (url : String) (idx : Nat) (e : Node) :
    (buildSection url idx e).type = sectionTypeOf e.tag := rfl

theorem idIndex_buildSection (url : String) (idx : Nat) (e : Node) :
    idIndex (buildSection url idx e).id = idx := by
  rw [buildSection_id]
  exact idIndex_mk _ _ (sectionTypeOf_no_hyphen _)

theorem enumFrom_fst_ge {α : Type} :
    ∀ (l : List α) (k : Nat) (p : Nat × α), p ∈ List.enumFrom k l → k ≤ p.1 := by
  intro l
  induction l with
  | nil => intro k p h; simp [List.enumFrom] at h
  | cons a l ih =>
    intro k p h
    rw [List.enumFrom] at h
    rcases List.mem_cons.mp h with h1 | h2
    · rw [h1]
    · have := ih (k + 1) p h2
      omega

theorem enumFrom_mem_get? {α : Type} :
    ∀ (l : List α) (k i : Nat) (x : α), (i, x) ∈ List.enumFrom k l → l.get? (i - k) = some x := by
  intro l
  induction l with
  | nil => intro k i x h; simp [List.enumFrom] at h
  | cons a l ih =>
    intro k i x h
    rw [List.enumFrom] at h
    rcases List.mem_cons.mp h with h1 | h2
    · have hi : i = k := congrArg Prod.fst h1
      have hx : x = a := congrArg Prod.snd h1
      subst hi
      subst hx
      simp
    · have hge := enumFrom_fst_ge l (k + 1) (i, x) h2
      have hrec := ih (k + 1) i x h2
      have harith : i - k = (i - (k + 1)) + 1 := by omega
      rw [harith]
      simpa [List.get?] using hrec

theorem build_ids_nodup (url : String) :
    ∀ (l : List Node) (k : Nat),
      ((List.enumFrom k l).map (fun p => (buildSection url p.1 p.2).id)).Nodup := by
  intro l
  induction l with
  | nil => intro k; simp [List.enumFrom]
  | cons a l ih =>
    intro k
    rw [List.enumFrom, List.map_cons]
    refine List.nodup_cons.mpr ⟨?_, ih (k + 1)⟩
    intro hmem
    rcases List.mem_map.mp hmem with ⟨p, hp, hid⟩
    have h1 : idIndex (buildSection url p.1 p.2).id = p.1 := idIndex_buildSection url p.1 p.2
    have h2 : idIndex (buildSection url k a).id = k := idIndex_buildSection url k a
    have hfst : p.1 = k := by rw [← h1, hid, h2]
    have := enumFrom_fst_ge l (k + 1) p hp
    omega

theorem extract_sections_mem (url : String) (doc : NodeList) (s : Section)
    (h : s ∈ extract_sections url doc) :
    ∃ p ∈ (candidatesOf doc).enum, s = buildSection url p.1 p.2 := by
  unfold extract_sections at h
  have h1 := (List.mem_filter.mp h).1
  rcases List.mem_map.mp h1 with ⟨p, hp, hs⟩
  exact ⟨p, hp, hs.symm⟩

theorem extract_sections_content (url : String) (doc : NodeList) (s : Section)
    (h : s ∈ extract_sections url doc) : sectionHasContent s = true := by
  unfold extract_sections at h
  exact (List.mem_filter.mp h).2

theorem extract_sections_ids_nodup (url : String) (doc : NodeList) :
    ((extract_sections url doc).map (fun s => s.id)).Nodup := by
  unfold extract_sections
  have hsub :
      (((((candidatesOf doc).enum.map (fun p => buildSection url p.1 p.2)).filter
          (fun s => sectionHasContent s)).map (fun s => s.id))).Sublist
        (((candidatesOf doc).enum.map (fun p => buildSection url p.1 p.2)).map
          (fun s => s.id)) :=
    List.Sublist.map _ (List.filter_sublist _)
  refine hsub.nodup ?_
  rw [List.map_map]
  exact build_ids_nodup url (candidatesOf doc) 0

theorem static_sections_cases (url : String) (fetchResult : Option String)
    (parse : String → NodeList) :
    static_sections url fetchResult parse = [] ∨
      ∃ h, static_sections url fetchResult parse = extract_sections url (parse h) := by
  cases fetchResult with
  | none => left; rfl
  | some h => right; exact ⟨h, rfl⟩

theorem core_sections_cases (url : String) (fetchResult : Option String)
    (parse : String → NodeList) (renderResult : Option String × Interactions) :
    (scrape_core url fetchResult parse renderResult).sections = [] ∨
      ∃ h, (scrape_core url fetchResult parse renderResult).sections =
        extract_sections url (parse h) := by
  unfold scrape_core
  by_cases hjs : use_js_fallback url fetchResult parse
  · rw [if_pos hjs]
    cases hr : renderResult.1 with
    | some hh => right; exact ⟨hh, rfl⟩
    | none => exact static_sections_cases url fetchResult parse
  · rw [if_neg hjs]
    exact static_sections_cases url fetchResult parse

theorem core_errors_eq (url : String) (fetchResult : Option String) (parse : String → NodeList)
    (renderResult : Option String × Interactions)
    (hjs : use_js_fallback url fetchResult parse = true) (hfail : renderResult.1 = none) :
    (scrape_core url fetchResult parse renderResult).errors =
      (if fetchResult.isNone then [fetchErrorRec] else []) ++ [renderErrorRec] := by
  unfold scrape_core
  rw [if_pos hjs, hfail]

theorem scrape_website_valid (url : String) (fetchResult : Option String)
    (parse : String → NodeList) (renderResult : Option String × Interactions)
    (hscheme : scheme_valid url = true) :
    scrape_website url fetchResult parse renderResult =
      { result :=
          { url := url
            meta := (scrape_core url fetchResult parse renderResult).meta
            sections :=
              if (scrape_core url fetchResult parse renderResult).sections.isEmpty &&
                  (scrape_core url fetchResult parse renderResult).errors.isEmpty then
                [fallback_section url fetchResult parse]
              else (scrape_core url fetchResult parse renderResult).sections
            interactions := (scrape_core url fetchResult parse renderResult).interactions
            errors := (scrape_core url fetchResult parse renderResult).errors }
        fetchInvoked := true
        renderInvoked := use_js_fallback url fetchResult parse } := by
  unfold scrape_website
  rw [if_pos hscheme]

theorem paginate_loop_spec (site : Site) :
    ∀ (fuel : Nat) (pages : List String) (cur : String),
      pages.Nodup → cur ∈ pages → pages.length ≤ MAX_PAGES →
      ((paginate_loop site fuel pages cur).1.Nodup ∧
       (paginate_loop site fuel pages cur).2 ∈ (paginate_loop site fuel pages cur).1 ∧
       (paginate_loop site fuel pages cur).1.length ≤ MAX_PAGES) := by
  intro fuel
  induction fuel with
  | zero =>
    intro pages cur h1 h2 h3
    exact ⟨h1, h2, h3⟩
  | succ f ih =>
    intro pages cur h1 h2 h3
    rw [paginate_loop]
    by_cases hl : pages.length < MAX_PAGES
    · rw [if_pos hl]
      cases hc : choose_next_link site cur with
      | none => exact ⟨h1, h2, h3⟩
      | some nl =>
        dsimp only
        by_cases hmem : urljoin cur nl ∈ pages
        · rw [if_pos hmem]
          exact ⟨h1, h2, h3⟩
        · rw [if_neg hmem]
          apply ih
          · rw [List.nodup_append]
            refine ⟨h1, List.nodup_singleton _, ?_⟩
            intro x hx hx2
            rw [List.mem_singleton.mp hx2] at hx
            exact hmem hx
          · simp
          · simp
            omega
    · rw [if_neg hl]
      exact ⟨h1, h2, h3⟩

theorem pickNumberedStep_none (cu : String) (cur : Int) (acc : Option String × Option Int)
    (h : String) (hA : anchorPageNum cu h = none) :
    pickNumberedStep cu cur acc h = acc := by
  unfold pickNumberedStep
  dsimp only
  unfold anchorPageNum at hA
  cases hq : getQueryParam "page" (urljoin cu h) with
  | none => rfl
  | some pv =>
    rw [hq] at hA
    rw [Option.some_bind] at hA
    dsimp only
    rw [hA]

theorem pickNumberedStep_some (cu : String) (cur : Int) (acc : Option String × Option Int)
    (h : String) (q : Int) (hA : anchorPageNum cu h = some q) :
    pickNumberedStep cu cur acc h =
      (if decide (cur < q) && Option.all (fun b => decide (q < b)) acc.2 then
        (some (urljoin cu h), some q)
      else acc) := by
  unfold pickNumberedStep
  dsimp only
  unfold anchorPageNum at hA
  cases hq : getQueryParam "page" (urljoin cu h) with
  | none =>
    rw [hq] at hA
    simp at hA
  | some pv =>
    rw [hq] at hA
    rw [Option.some_bind] at hA
    dsimp only
    rw [hA]

theorem pick_fold (cu : String) (cur : Int) :
    ∀ (hs : List String) (acc : Option String × Option Int),
      (acc = (none, none) ∨ ∃ u0 p0, acc = (some u0, some p0) ∧ cur < p0) →
      ((hs.foldl (pickNumberedStep cu cur) acc = acc ∨
          ∃ h ∈ hs, ∃ p,
            hs.foldl (pickNumberedStep cu cur) acc = (some (urljoin cu h), some p) ∧
              anchorPageNum cu h = some p ∧ cur < p) ∧
        (∀ p p0, (hs.foldl (pickNumberedStep cu cur) acc).2 = some p → acc.2 = some p0 →
          p ≤ p0) ∧
        (∀ p, (hs.foldl (pickNumberedStep cu cur) acc).2 = some p →
          ∀ h ∈ hs, ∀ q, anchorPageNum cu h = some q → cur < q → p ≤ q) ∧
        ((hs.foldl (pickNumberedStep cu cur) acc).2 = none → acc.2 = none ∧
          ∀ h ∈ hs, ∀ q, anchorPageNum cu h = some q → ¬cur < q) ∧
        (∀ p, (hs.foldl (pickNumberedStep cu cur) acc).2 = some p → cur < p)) := by
  intro hs
  induction hs with
  | nil =>
    intro acc hinv
    refine ⟨Or.inl rfl, ?_, ?_, ?_, ?_⟩
    · intro p p0 h1 h2
      rw [List.foldl_nil] at h1
      rw [h1] at h2
      injection h2 with h3
      omega
    · intro p _ h hmem
      exact absurd hmem (List.not_mem_nil h)
    · intro h0
      rw [List.foldl_nil] at h0
      exact ⟨h0, fun h hmem => absurd hmem (List.not_mem_nil h)⟩
    · intro p hp
      rw [List.foldl_nil] at hp
      rcases hinv with h0 | ⟨u0, p0, hacc, hlt⟩
      · rw [h0] at hp
        cases hp
      · rw [hacc] at hp
        injection hp with h3
        omega
  | cons h t ih =>
    intro acc hinv
    rw [List.foldl_cons]
    cases hA : anchorPageNum cu h with
    | none =>
      rw [pickNumberedStep_none cu cur acc h hA]
      obtain ⟨B, C, D, E, F⟩ := ih acc hinv
      refine ⟨?_, C, ?_, ?_, F⟩
      · rcases B with hB | ⟨h', hm', p, hr, ha', hl'⟩
        · exact Or.inl hB
        · exact Or.inr ⟨h', List.mem_cons_of_mem _ hm', p, hr, ha', hl'⟩
      · intro p hp h' hm' q haq hq
        rcases List.mem_cons.mp hm' with he | hm2
        · rw [he] at haq
          rw [hA] at haq
          cases haq
        · exact D p hp h' hm2 q haq hq
      · intro hnone
        obtain ⟨hacc2, hrest⟩ := E hnone
        refine ⟨hacc2, ?_⟩
        intro h' hm' q haq
        rcases List.mem_cons.mp hm' with he | hm2
        · rw [he] at haq
          rw [hA] at haq
          cases haq
        · exact hrest h' hm2 q haq
    | some q =>
      rw [pickNumberedStep_some cu cur acc h q hA]
      by_cases hcq : cur < q
      · rcases hinv with h0 | ⟨u0, p0, hacc, hp0⟩
        · subst h0
          have hcond :
              (decide (cur < q) &&
                Option.all (fun b => decide (q < b))
                  ((none, none) : Option String × Option Int).2) = true := by
            simp [hcq]
          rw [if_pos hcond]
          obtain ⟨B, C, D, E, F⟩ :=
            ih (some (urljoin cu h), some q) (Or.inr ⟨_, _, rfl, hcq⟩)
          refine ⟨?_, ?_, ?_, ?_, F⟩
          · rcases B with hB | ⟨h', hm', p, hr, ha', hl'⟩
            · exact Or.inr ⟨h, List.mem_cons_self _ _, q, hB, hA, hcq⟩
            · exact Or.inr ⟨h', List.mem_cons_of_mem _ hm', p, hr, ha', hl'⟩
          · intro p p1 hp hacc2
            cases hacc2
          · intro p hp h' hm' q' haq hq'
            rcases List.mem_cons.mp hm' with he | hm2
            · rw [he] at haq
              rw [hA] at haq
              injection haq with hqq
              rw [← hqq]
              exact C p q hp rfl
            · exact D p hp h' hm2 q' haq hq'
          · intro hnone
            obtain ⟨habs, _⟩ := E hnone
            cases habs
        · subst hacc
          by_cases hqp : q < p0
          · have hcond :
                (decide (cur < q) &&
                  Option.all (fun b => decide (q < b))
                    ((some u0, some p0) : Option String × Option Int).2) = true := by
              simp [hcq, hqp]
            rw [if_pos hcond]
            obtain ⟨B, C, D, E, F⟩ :=
              ih (some (urljoin cu h), some q) (Or.inr ⟨_, _, rfl, hcq⟩)
            refine ⟨?_, ?_, ?_, ?_, F⟩
            · rcases B with hB | ⟨h', hm', p, hr, ha', hl'⟩
              · exact Or.inr ⟨h, List.mem_cons_self _ _, q, hB, hA, hcq⟩
              · exact Or.inr ⟨h', List.mem_cons_of_mem _ hm', p, hr, ha', hl'⟩
            · intro p p1 hp hacc2
              injection hacc2 with h3
              have hple : p ≤ q := C p q hp rfl
              omega
            · intro p hp h' hm' q' haq hq'
              rcases List.mem_cons.mp hm' with he | hm2
              · rw [he] at haq
                rw [hA] at haq
                injection haq with hqq
                rw [← hqq]
                exact C p q hp rfl
              · exact D p hp h' hm2 q' haq hq'
            · intro hnone
              obtain ⟨habs, _⟩ := E hnone
              cases habs
          · have hcond :
                (decide (cur < q) &&
                  Option.all (fun b => decide (q < b))
                    ((some u0, some p0) : Option String × Option Int).2) = false := by
              simp [hqp]
            rw [hcond, if_neg (by decide : ¬(false = true))]
            obtain ⟨B, C, D, E, F⟩ := ih (some u0, some p0) (Or.inr ⟨_, _, rfl, hp0⟩)
            refine ⟨?_, C, ?_, ?_, F⟩
            · rcases B with hB | ⟨h', hm', p, hr, ha', hl'⟩
              · exact Or.inl hB
              · exact Or.inr ⟨h', List.mem_cons_of_mem _ hm', p, hr, ha', hl'⟩
            · intro p hp h' hm' q' haq hq'
              rcases List.mem_cons.mp hm' with he | hm2
              · rw [he] at haq
                rw [hA] at haq
                injection haq with hqq
                have hple : p ≤ p0 := C p p0 hp rfl
                omega
              · exact D p hp h' hm2 q' haq hq'
            · intro hnone
              obtain ⟨habs, _⟩ := E hnone
              cases habs
      · have hcond :
            (decide (cur < q) && Option.all (fun b => decide (q < b)) acc.2) = false := by
          simp [hcq]
        rw [hcond, if_neg (by decide : ¬(false = true))]
        obtain ⟨B, C, D, E, F⟩ := ih acc hinv
        refine ⟨?_, C, ?_, ?_, F⟩
        · rcases B with hB | ⟨h', hm', p, hr, ha', hl'⟩
          · exact Or.inl hB
          · exact Or.inr ⟨h', List.mem_cons_of_mem _ hm', p, hr, ha', hl'⟩
        · intro p hp h' hm' q' haq hq'
          rcases List.mem_cons.mp hm' with he | hm2
          · rw [he] at haq
            rw [hA] at haq
            injection haq with hqq
            rw [← hqq] at hq'
            exact absurd hq' hcq
          · exact D p hp h' hm2 q' haq hq'
        · intro hnone
          obtain ⟨hacc2, hrest⟩ := E hnone
          refine ⟨hacc2, ?_⟩
          intro h' hm' q' haq
          rcases List.mem_cons.mp hm' with he | hm2
          · rw [he] at haq
            rw [hA] at haq
            injection haq with hqq
            rw [← hqq]
            exact hcq
          · exact hrest h' hm2 q' haq

theorem scrape_errors_eq (url : String) (fetchResult : Option String)
    (parse : String → NodeList) (renderResult : Option String × Interactions)
    (hscheme : scheme_valid url = true) :
    (scrape_website url fetchResult parse renderResult).result.errors =
      (scrape_core url fetchResult parse renderResult).errors := by
  rw [scrape_website_valid url fetchResult parse renderResult hscheme]

/-! ## Claim theorems -/

/-- C1: for every scheme-valid URL, the dynamic render navigator is
invoked iff the static fetch failed or the total static section text
length is strictly below the 500-character threshold; and when it is not
invoked, the result does not depend on the dynamic render outcome at all
(so with a successful fetch and total length at least 500 the navigator is
never consulted). -/
theorem C1_dynamic_trigger (url : String) (fetchResult : Option String)
    (parse : String → NodeList) (renderResult : Option String × Interactions)
    (hscheme : scheme_valid url = true) :
    ((scrape_website url fetchResult parse renderResult).renderInvoked = true ↔
      (fetchResult = none ∨
        total_text_len (static_sections url fetchResult parse) < TEXT_LENGTH_JS_THRESHOLD)) ∧
    ((scrape_website url fetchResult parse renderResult).renderInvoked = false →
      ∀ renderResult', scrape_website url fetchResult parse renderResult' =
        scrape_website url fetchResult parse renderResult) := by
  constructor
  · rw [scrape_website_valid url fetchResult parse renderResult hscheme]
    show use_js_fallback url fetchResult parse = true ↔ _
    simp [use_js_fallback, Option.isNone_iff_eq_none]
  · intro hfalse renderResult'
    have hjs : use_js_fallback url fetchResult parse = false := by
      rw [scrape_website_valid url fetchResult parse renderResult hscheme] at hfalse
      exact hfalse
    simp [scrape_website, hscheme, scrape_core, hjs]

/-- Witness for C1 at a concrete scheme-valid input whose static fetch failed. -/
theorem C1_witness :
    scheme_valid cxUrl = true ∧
      ((scrape_website cxUrl none cxParse (none, cxLog)).renderInvoked = true ↔
        ((none : Option String) = none ∨
          total_text_len (static_sections cxUrl none cxParse) < TEXT_LENGTH_JS_THRESHOLD)) :=
  ⟨by decide, (C1_dynamic_trigger cxUrl none cxParse (none, cxLog) (by decide)).1⟩

/-- C2: when the dynamic pass is attempted and fails, the error list holds
a render-phase error, and a fetch-phase error iff the static pass had also
failed; when the dynamic pass succeeds after a static failure, the error
list is empty. -/
theorem C2_error_emission (url : String) (fetchResult : Option String)
    (parse : String → NodeList) (renderResult : Option String × Interactions)
    (hscheme : scheme_valid url = true) :
    ((use_js_fallback url fetchResult parse = true → renderResult.1 = none →
      ((scrape_website url fetchResult parse renderResult).result.errors.any
          (fun e => e.phase == "render") = true ∧
        ((scrape_website url fetchResult parse renderResult).result.errors.any
            (fun e => e.phase == "fetch") = true ↔ fetchResult = none))) ∧
      (fetchResult = none → ∀ h2, renderResult.1 = some h2 →
        (scrape_website url fetchResult parse renderResult).result.errors = [])) := by
  constructor
  · intro hjs hfail
    rw [scrape_errors_eq url fetchResult parse renderResult hscheme,
      core_errors_eq url fetchResult parse renderResult hjs hfail]
    cases fetchResult with
    | none => simp [fetchErrorRec, renderErrorRec]
    | some h => simp [fetchErrorRec, renderErrorRec]
  · intro hf h2 hr
    have hjs : use_js_fallback url fetchResult parse = true := by
      rw [hf]
      simp [use_js_fallback]
    rw [scrape_errors_eq url fetchResult parse renderResult hscheme]
    unfold scrape_core
    rw [if_pos hjs, hr]

/-- Witness for C2 at a concrete input where both passes failed. -/
theorem C2_witness :
    ((scrape_website cxUrl none cxParse (none, cxLog)).result.errors.any
        (fun e => e.phase == "render") = true) ∧
      ((scrape_website cxUrl none cxParse (none, cxLog)).result.errors.any
          (fun e => e.phase == "fetch") = true ↔ (none : Option String) = none) :=
  (C2_error_emission cxUrl none cxParse (none, cxLog) (by decide)).1 (by decide) rfl

/-- C4: a request whose URL scheme is not http or https returns empty
meta fields, null canonical, no sections, empty interactions (no pages),
and exactly one fetch-phase error, and neither the static fetcher nor the
dynamic navigator is invoked. -/
theorem C4_invalid_scheme (url : String) (fetchResult : Option String)
    (parse : String → NodeList) (renderResult : Option String × Interactions)
    (h : scheme_valid url = false) :
    scrape_website url fetchResult parse renderResult =
      { result :=
          { url := url
            meta := { title := "", description := "", language := "", canonical := none }
            sections := []
            interactions := { clicks := [], scrolls := 0, pages := [] }
            errors :=
              [{ message := "URL must start with http:// or https://", phase := "fetch" }] }
        fetchInvoked := false
        renderInvoked := false } := by
  unfold scrape_website
  rw [if_neg (by simp [h])]
  rfl

/-- Witness for C4 at a concrete ftp URL. -/
theorem C4_witness :
    scrape_website "ftp://cx.example/" none cxParse (none, cxLog) =
      { result :=
          { url := "ftp://cx.example/"
            meta := { title := "", description := "", language := "", canonical := none }
            sections := []
            interactions := { clicks := [], scrolls := 0, pages := [] }
            errors :=
              [{ message := "URL must start with http:// or https://", phase := "fetch" }] }
        fetchInvoked := false
        renderInvoked := false } :=
  C4_invalid_scheme "ftp://cx.example/" none cxParse (none, cxLog) (by decide)

/-- C3 counterexample: with a static fetch yielding a document with no
body and a successful dynamic pass also yielding no sections, the
synthesized fallback section has empty text and no links, images, lists or
tables, so the returned result contains a section without content. -/
theorem C3_counterexample :
    ¬(∀ s ∈ (scrape_website cxUrl (some cxStaticHtml) cxParse
        (some cxDynHtml, cxLog)).result.sections, sectionHasContent s = true) := by
  decide

/-- C3 (amended): every section of a returned result has non-empty
flattened text or at least one link, image, list or table, except possibly
the synthesized fallback section; sections produced by the section
extractor always satisfy the condition. -/
theorem C3_amended_content (url : String) (fetchResult : Option String)
    (parse : String → NodeList) (renderResult : Option String × Interactions) (s : Section)
    (hmem : s ∈ (scrape_website url fetchResult parse renderResult).result.sections) :
    sectionHasContent s = true ∨ s = fallback_section url fetchResult parse := by
  by_cases hscheme : scheme_valid url = true
  · rw [scrape_website_valid url fetchResult parse renderResult hscheme] at hmem
    by_cases hfb :
        ((scrape_core url fetchResult parse renderResult).sections.isEmpty &&
          (scrape_core url fetchResult parse renderResult).errors.isEmpty) = true
    · right
      simp only [hfb, if_true] at hmem
      exact List.mem_singleton.mp hmem
    · left
      simp only [hfb] at hmem
      rcases core_sections_cases url fetchResult parse renderResult with hc | ⟨h2, hc⟩
      · rw [hc] at hmem
        exact absurd hmem (List.not_mem_nil s)
      · rw [hc] at hmem
        exact extract_sections_content url (parse h2) s hmem
  · unfold scrape_website at hmem
    rw [if_neg (by simpa using hscheme)] at hmem
    exact absurd hmem (List.not_mem_nil s)

/-- Witness for the amended C3: the fallback section of the counterexample
scenario is a member of the returned sections and falls in the fallback
disjunct. -/
theorem C3_witness :
    sectionHasContent
        (fallback_section cxUrl (some cxStaticHtml) cxParse) = true ∨
      fallback_section cxUrl (some cxStaticHtml) cxParse =
        fallback_section cxUrl (some cxStaticHtml) cxParse :=
  C3_amended_content cxUrl (some cxStaticHtml) cxParse (some cxDynHtml, cxLog)
    (fallback_section cxUrl (some cxStaticHtml) cxParse) (by decide)

/-- C5 counterexample: the dynamic pass succeeds (render invoked, HTML
returned) yet the returned sections differ from those computed from the
dynamically rendered HTML — the empty dynamic section list is replaced by
the fallback section synthesized from the static HTML. -/
theorem C5_counterexample :
    (scrape_website cxUrl (some cxStaticHtml) cxParse
        (some cxDynHtml, cxLog)).renderInvoked = true ∧
      (scrape_website cxUrl (some cxStaticHtml) cxParse
          (some cxDynHtml, cxLog)).result.sections ≠
        extract_sections cxUrl (cxParse cxDynHtml) := by
  decide

/-- C5 (amended): when the dynamic pass is attempted and succeeds, the
meta and interactions of the result are exactly those computed from the
dynamically rendered HTML and the dynamic interaction log, no error is
recorded, and the sections are those computed from the rendered HTML
unless that list is empty, in which case the single fallback section
synthesized from the static HTML replaces it. -/
theorem C5_amended_replacement (url : String) (fetchResult : Option String)
    (parse : String → NodeList) (ilog : Interactions) (h2 : String)
    (hscheme : scheme_valid url = true)
    (hjs : use_js_fallback url fetchResult parse = true) :
    (scrape_website url fetchResult parse (some h2, ilog)).result.meta =
        extract_meta url (parse h2) ∧
      (scrape_website url fetchResult parse (some h2, ilog)).result.interactions = ilog ∧
      (scrape_website url fetchResult parse (some h2, ilog)).result.errors = [] ∧
      (scrape_website url fetchResult parse (some h2, ilog)).result.sections =
        (if extract_sections url (parse h2) = [] then
          [fallback_section url fetchResult parse]
        else extract_sections url (parse h2)) := by
  rw [scrape_website_valid url fetchResult parse (some h2, ilog) hscheme]
  have hcore : scrape_core url fetchResult parse (some h2, ilog) =
      { meta := extract_meta url (parse h2)
        sections := extract_sections url (parse h2)
        interactions := ilog
        errors := [] } := by
    unfold scrape_core
    rw [if_pos hjs]
  rw [hcore]
  refine ⟨rfl, rfl, rfl, ?_⟩
  by_cases hempty : extract_sections url (parse h2) = []
  · simp [hempty]
  · simp [hempty, List.isEmpty_iff]

/-- Witness for the amended C5 at the counterexample scenario's inputs. -/
theorem C5_witness :
    (scrape_website cxUrl (some cxStaticHtml) cxParse
        (some cxDynHtml, cxLog)).result.interactions = cxLog ∧
      (scrape_website cxUrl (some cxStaticHtml) cxParse
          (some cxDynHtml, cxLog)).result.errors = [] :=
  ⟨(C5_amended_replacement cxUrl (some cxStaticHtml) cxParse cxLog cxDynHtml (by decide)
      (by decide)).2.1,
    (C5_amended_replacement cxUrl (some cxStaticHtml) cxParse cxLog cxDynHtml (by decide)
      (by decide)).2.2.1⟩

/-- C10: when the fallback section is synthesized (sections and errors
both empty after all passes), the returned sections consist of exactly the
fallback section, which is derived from the static fetch's HTML alone —
its id, type and label are fixed, its element lists are empty, and when
the static fetch failed its text and rawHtml are empty even if the
dynamic pass succeeded. -/
theorem C10_fallback_from_static (url : String) (fetchResult : Option String)
    (parse : String → NodeList) (renderResult : Option String × Interactions)
    (hscheme : scheme_valid url = true)
    (hsec : (scrape_core url fetchResult parse renderResult).sections = [])
    (herr : (scrape_core url fetchResult parse renderResult).errors = []) :
    (scrape_website url fetchResult parse renderResult).result.sections =
        [fallback_section url fetchResult parse] ∧
      (fallback_section url fetchResult parse).id = "section-0" ∧
      (fallback_section url fetchResult parse).type = "section" ∧
      (fallback_section url fetchResult parse).label = "Page Content" ∧
      (fallback_section url fetchResult parse).content.headings = [] ∧
      (fallback_section url fetchResult parse).content.links = [] ∧
      (fallback_section url fetchResult parse).content.images = [] ∧
      (fallback_section url fetchResult parse).content.lists = [] ∧
      (fallback_section url fetchResult parse).content.tables = [] ∧
      (∀ u2 p2, (fallback_section u2 none p2).content.text = "" ∧
        (fallback_section u2 none p2).rawHtml = "") := by
  refine ⟨?_, rfl, rfl, rfl, rfl, rfl, rfl, rfl, rfl, fun u2 p2 => ⟨rfl, rfl⟩⟩
  rw [scrape_website_valid url fetchResult parse renderResult hscheme]
  show (if _ then _ else _) = _
  rw [hsec, herr]
  rfl

/-- Witness for C10: the counterexample scenario synthesizes the fallback
section even though the dynamic pass succeeded. -/
theorem C10_witness :
    (scrape_website cxUrl (some cxStaticHtml) cxParse
        (some cxDynHtml, cxLog)).result.sections =
      [fallback_section cxUrl (some cxStaticHtml) cxParse] :=
  (C10_fallback_from_static cxUrl (some cxStaticHtml) cxParse (some cxDynHtml, cxLog)
    (by decide) (by decide) (by decide)).1

/-- C6: a candidate block whose serialized markup has at most 5000
characters is stored unchanged with truncated false; a longer one is
stored as its first 5000 characters followed by the truncation marker with
truncated true — in particular at exactly 5001 and exactly 5000
characters. -/
theorem C6_raw_truncation :
    (∀ url idx elem,
      (buildSection url idx elem).rawHtml =
          (if RAW_HTML_MAX_CHARS < (serializeNode elem).length then
            takeChars RAW_HTML_MAX_CHARS (serializeNode elem) ++ "...[truncated]"
          else serializeNode elem) ∧
        (buildSection url idx elem).truncated =
          decide (RAW_HTML_MAX_CHARS < (serializeNode elem).length)) ∧
      ((buildSection "http://c6.example/" 0 (Node.text big5001)).truncated = true ∧
        (buildSection "http://c6.example/" 0 (Node.text big5001)).rawHtml =
          big5000 ++ "...[truncated]") ∧
      ((buildSection "http://c6.example/" 0 (Node.text big5000)).truncated = false ∧
        (buildSection "http://c6.example/" 0 (Node.text big5000)).rawHtml = big5000) := by
  have hser1 : serializeNode (Node.text big5001) = big5001 := rfl
  have hser0 : serializeNode (Node.text big5000) = big5000 := rfl
  have hlen1 : big5001.length = 5001 := by
    show (List.replicate 5001 'x').asString.length = 5001
    rw [List.length_asString, List.length_replicate]
  have hlen0 : big5000.length = 5000 := by
    show (List.replicate 5000 'x').asString.length = 5000
    rw [List.length_asString, List.length_replicate]
  have htake : takeChars RAW_HTML_MAX_CHARS big5001 = big5000 := by
    show String.mk ((List.replicate 5001 'x').take RAW_HTML_MAX_CHARS) = big5000
    rw [List.take_replicate]
    norm_num [RAW_HTML_MAX_CHARS, big5000]
  have hgen : ∀ (url : String) (idx : Nat) (elem : Node),
      (buildSection url idx elem).rawHtml =
          (if RAW_HTML_MAX_CHARS < (serializeNode elem).length then
            takeChars RAW_HTML_MAX_CHARS (serializeNode elem) ++ "...[truncated]"
          else serializeNode elem) ∧
        (buildSection url idx elem).truncated =
          decide (RAW_HTML_MAX_CHARS < (serializeNode elem).length) :=
    fun url idx elem => ⟨rfl, rfl⟩
  refine ⟨hgen, ⟨?_, ?_⟩, ⟨?_, ?_⟩⟩
  · simp only [(hgen "http://c6.example/" 0 (Node.text big5001)).2, hser1,
      decide_eq_true_eq, hlen1]
    norm_num [RAW_HTML_MAX_CHARS]
  · simp only [(hgen "http://c6.example/" 0 (Node.text big5001)).1, hser1]
    rw [if_pos (show RAW_HTML_MAX_CHARS < big5001.length by
      rw [hlen1]; norm_num [RAW_HTML_MAX_CHARS])]
    rw [htake]
  · simp only [(hgen "http://c6.example/" 0 (Node.text big5000)).2, hser0,
      decide_eq_false_iff_not, hlen0]
    norm_num [RAW_HTML_MAX_CHARS]
  · simp only [(hgen "http://c6.example/" 0 (Node.text big5000)).1, hser0]
    rw [if_neg (show ¬RAW_HTML_MAX_CHARS < big5000.length by
      rw [hlen0]; norm_num [RAW_HTML_MAX_CHARS])]

/-- C7: the visited-pages log of the pagination traversal never contains
a duplicate URL and never exceeds the page bound; on the synthetic site
where page 3 links back to page 1, traversal visits exactly pages 1, 2, 3
and page 1 appears once. -/
theorem C7_pages_no_duplicates :
    (∀ site url, (render_pages site url).Nodup ∧
        (render_pages site url).length ≤ MAX_PAGES) ∧
      render_pages cycleSite pg1 = [pg1, pg2, pg3] ∧
      (render_pages cycleSite pg1).count pg1 = 1 := by
  refine ⟨?_, by decide, by decide⟩
  intro site url
  have h := paginate_loop_spec site MAX_PAGES [url] url (List.nodup_singleton url)
    (List.mem_singleton_self url) (by norm_num [MAX_PAGES])
  unfold render_pages
  dsimp only
  rw [if_pos h.2.1]
  exact ⟨h.1, h.2.2⟩

/-- C8: the numbered-pagination fallback reads the current page number
from the current URL's page parameter (default 1), resolves every anchor
against the current URL, and picks the candidate whose page number is the
smallest one strictly above the current page; concretely, from page 1 the
candidates page 2, 5, 3 yield page 2. -/
theorem C8_numbered_fallback :
    (∀ cu hs u p, pick_numbered_full cu hs = (some u, some p) →
      (current_page_num cu < p ∧
        (∃ h ∈ hs, u = urljoin cu h ∧ anchorPageNum cu h = some p) ∧
        (∀ h ∈ hs, ∀ q, anchorPageNum cu h = some q → current_page_num cu < q → p ≤ q))) ∧
      (∀ cu hs, pick_numbered cu hs = none →
        ∀ h ∈ hs, ∀ q, anchorPageNum cu h = some q → ¬current_page_num cu < q) ∧
      (∀ cu hs u, pick_numbered cu hs = some u →
        ∃ p, pick_numbered_full cu hs = (some u, some p)) ∧
      current_page_num c8url = 1 ∧
      current_page_num "http://ex.example/list" = 1 ∧
      current_page_num "http://ex.example/list?page=abc" = 1 ∧
      pick_numbered c8url ["?page=2", "?page=5", "?page=3"] =
        some "http://ex.example/list?page=2" := by
  refine ⟨?_, ?_, ?_, by decide, by decide, by decide, by decide⟩
  · intro cu hs u p hfull
    obtain ⟨B, C, D, E, F⟩ := pick_fold cu (current_page_num cu) hs (none, none) (Or.inl rfl)
    have hfull' :
        hs.foldl (pickNumberedStep cu (current_page_num cu)) (none, none) = (some u, some p) :=
      hfull
    have hsnd :
        (hs.foldl (pickNumberedStep cu (current_page_num cu)) (none, none)).2 = some p := by
      rw [hfull']
    refine ⟨F p hsnd, ?_, fun h hm q haq hq => D p hsnd h hm q haq hq⟩
    rcases B with hB | ⟨h, hm, p', hr, ha, _⟩
    · rw [hB] at hfull'
      cases hfull'
    · rw [hr] at hfull'
      injection hfull' with h1 h2
      injection h1 with h1
      injection h2 with h2
      exact ⟨h, hm, h1.symm, by rw [← h2]; exact ha⟩
  · intro cu hs hnone
    obtain ⟨B, C, D, E, F⟩ := pick_fold cu (current_page_num cu) hs (none, none) (Or.inl rfl)
    have hfst :
        (hs.foldl (pickNumberedStep cu (current_page_num cu)) (none, none)).1 = none := hnone
    rcases B with hB | ⟨h, hm, p', hr, ha, _⟩
    · have hsnd :
          (hs.foldl (pickNumberedStep cu (current_page_num cu)) (none, none)).2 = none := by
        rw [hB]
      exact (E hsnd).2
    · rw [hr] at hfst
      cases hfst
  · intro cu hs u hsome
    obtain ⟨B, C, D, E, F⟩ := pick_fold cu (current_page_num cu) hs (none, none) (Or.inl rfl)
    have hfst :
        (hs.foldl (pickNumberedStep cu (current_page_num cu)) (none, none)).1 = some u := hsome
    rcases B with hB | ⟨h, hm, p', hr, ha, _⟩
    · rw [hB] at hfst
      cases hfst
    · rw [hr] at hfst
      injection hfst with h1
      refine ⟨p', ?_⟩
      show hs.foldl (pickNumberedStep cu (current_page_num cu)) (none, none) = (some u, some p')
      rw [hr, h1]

/-- Witness for C8: the chosen candidate at the concrete example carries
page number 2, strictly above the current page 1. -/
theorem C8_witness : current_page_num c8url < 2 :=
  (C8_numbered_fallback.1 c8url ["?page=2", "?page=5", "?page=3"]
    "http://ex.example/list?page=2" 2 (by decide)).1

/-- C9: every extracted section's id is its type, a hyphen, and the
decimal positional index among all candidate blocks (dropped candidates
included), the indexed candidate rebuilding the section exactly; and the
ids of any extracted section list, as well as of the sections of any
returned result, contain no duplicate. -/
theorem C9_section_ids :
    (∀ url doc s, s ∈ extract_sections url doc →
      ((candidatesOf doc).get? (idIndex s.id)).map (buildSection url (idIndex s.id)) =
          some s ∧
        s.id = s.type ++ "-" ++ natToDec (idIndex s.id)) ∧
      (∀ url doc, ((extract_sections url doc).map (fun s => s.id)).Nodup) ∧
      (∀ url fetchResult parse renderResult,
        (((scrape_website url fetchResult parse renderResult).result.sections).map
          (fun s => s.id)).Nodup) := by
  refine ⟨?_, fun url doc => extract_sections_ids_nodup url doc, ?_⟩
  · intro url doc s hs
    obtain ⟨p, hp, hbuild⟩ := extract_sections_mem url doc s hs
    have hget : (candidatesOf doc).get? (p.1 - 0) = some p.2 :=
      enumFrom_mem_get? (candidatesOf doc) 0 p.1 p.2 hp
    rw [Nat.sub_zero] at hget
    constructor
    · rw [hbuild, idIndex_buildSection url p.1 p.2, hget, Option.map_some']
    · rw [hbuild, idIndex_buildSection url p.1 p.2, buildSection_id, buildSection_type]
  · intro url fetchResult parse renderResult
    by_cases hscheme : scheme_valid url = true
    · rw [scrape_website_valid url fetchResult parse renderResult hscheme]
      dsimp only
      by_cases hfb :
          ((scrape_core url fetchResult parse renderResult).sections.isEmpty &&
            (scrape_core url fetchResult parse renderResult).errors.isEmpty) = true
      · rw [if_pos hfb]
        exact List.nodup_singleton _
      · rw [if_neg hfb]
        rcases core_sections_cases url fetchResult parse renderResult with hc | ⟨h2, hc⟩
        · rw [hc]
          exact List.nodup_nil
        · rw [hc]
          exact extract_sections_ids_nodup url (parse h2)
    · unfold scrape_website
      rw [if_neg (by simpa using hscheme)]
      exact List.nodup_nil

/-- Witness for C9 at the concrete one-section document. -/
theorem C9_witness :
    ((candidatesOf secDoc).get? (idIndex w9sec.id)).map (buildSection w9url (idIndex w9sec.id)) =
        some w9sec ∧
      w9sec.id = w9sec.type ++ "-" ++ natToDec (idIndex w9sec.id) :=
  C9_section_ids.1 w9url secDoc w9sec (by decide)

end Scrape

example : Scrape.urljoin "http://ex.com/list?page=1" "?page=2" = "http://ex.com/list?page=2" := by
  decide

example : Scrape.urljoin "https://x.com/c/d" "/a/b" = "https://x.com/a/b" := by decide

example : Scrape.urljoin "http://x.com/c/d" "e" = "http://x.com/c/e" := by decide

example : Scrape.getQueryParam "page" "http://ex.com/list?page=2" = some "2" := by decide

example : Scrape.pyInt " -12 " = some (-12) := by decide

example : Scrape.natToDec 130 = "130" := by decide
